import Mathlib

/-!
# Verification of the hashtext service (golang-gorilla-webapp)

Shallow embedding of `src/hashtext/handlers.go`, `src/hashtext/main.go` and the
router (`makeRouter`).  The two Postgres tables of `schema.sql` are modelled as
association lists; single-row queries return a `Scan` result mirroring
`sql.Row.Scan` (value, `sql.ErrNoRows`, or another error).  Storage faults are
injected through a `Faults` record: each flag makes the corresponding query or
exec statement fail, as an opaque storage fault would.

The SHA-256 digest itself comes from Go's external `crypto/sha256` library, so
it is treated as an abstract parameter `sha : String → List Nat` (the digest
bytes); `hex.EncodeToString` is embedded concretely (it emits lowercase hex).
`encoding/json` and `reflect.StructTag` are Go standard library collaborators;
the parts the handlers rely on (struct-tag lookup and the resulting JSON object
keys) are embedded from their documented semantics, because the repository's
struct tags are syntactically malformed and the effective field names depend on
exactly that semantics.
-/

namespace HashText

/-! ## Hex encoding (Go `encoding/hex.EncodeToString`) -/

/-- One lowercase hex digit, as Go's `hex` package emits them
("0123456789abcdef"). -/
def hexDigitChar (n : Nat) : Char :=
  if n < 10 then Char.ofNat (48 + n) else Char.ofNat (87 + n)

/-- A byte as two lowercase hex digits (high nibble first). -/
def hexEncodeByte (b : Nat) : List Char :=
  [hexDigitChar (b / 16), hexDigitChar (b % 16)]

/-- `hex.EncodeToString` over a byte slice. -/
def hexEncode (bs : List Nat) : String :=
  String.mk (bs.flatMap hexEncodeByte)

/-- `sha256String` from handlers.go: hex-encode the SHA-256 digest of `s`.
The digest function is the abstract parameter `sha`. -/
def sha256String (sha : String → List Nat) (s : String) : String :=
  hexEncode (sha s)

/-! ## Go struct-tag semantics (`reflect.StructTag` / `encoding/json`)

The three document structs in handlers.go carry the tags `json:user_id`
(backquoted), `"json:text"` and `"json:hash"`.  A conventional Go struct tag
is a space-separated list of `key:"value"` pairs; `reflect.StructTag.Lookup`
returns the value only when that exact syntax is met, and `encoding/json`
falls back to the Go field name when it is not.  We embed that lookup. -/

/-- Is `c` acceptable inside a tag key?  Go scans the key while the byte is
`> ' '`, not `':'`, not `'"'` and not `0x7f`. -/
def tagKeyChar (c : Char) : Bool :=
  32 < c.toNat && c.toNat ≠ 58 && c.toNat ≠ 34 && c.toNat ≠ 127

/-- Scan a double-quoted tag value: Go advances to the next unescaped `'"'`,
skipping the character after each backslash.  Returns the raw value (without
the closing quote) and the remainder, or `none` when the quote is unterminated. -/
def scanQuoted : List Char → Option (List Char × List Char)
  | [] => none
  | '"' :: rest => some ([], rest)
  | '\\' :: c :: rest =>
      (scanQuoted rest).map (fun p => ('\\' :: c :: p.1, p.2))
  | c :: rest =>
      (scanQuoted rest).map (fun p => (c :: p.1, p.2))

/-- Undo the backslash escapes of a scanned tag value, as `strconv.Unquote`
does for the simple (quote and backslash) escapes that can occur in a tag. -/
def unquoteChars : List Char → List Char
  | [] => []
  | '\\' :: c :: rest => c :: unquoteChars rest
  | c :: rest => c :: unquoteChars rest

/-- `reflect.StructTag.Lookup key tag`, on characters, with fuel bounded by the
tag length (each iteration consumes at least one character). -/
def structTagLookupAux (key : List Char) : Nat → List Char → Option (List Char)
  | 0, _ => none
  | fuel + 1, tag =>
      let t := tag.dropWhile (fun c => c = ' ')
      if t.isEmpty then none
      else
        let name := t.takeWhile tagKeyChar
        let rest := t.drop name.length
        if name.isEmpty then none
        else
          match rest with
          | ':' :: '"' :: vrest =>
              match scanQuoted vrest with
              | none => none
              | some (qvalue, rest2) =>
                  if name = key then some (unquoteChars qvalue)
                  else structTagLookupAux key fuel rest2
          | _ => none

/-- `reflect.StructTag.Lookup` on strings; `none` is Go's `ok = false`. -/
def structTagLookup (key tag : String) : Option String :=
  (structTagLookupAux key.data (tag.length + 1) tag.data).map String.mk

/-- The punctuation runes Go's `encoding/json.isValidTag` accepts besides
letters and digits (the set "!#$%&()*+-./:;<=>?@[]^_ ~|" with both braces),
given by code point to keep to ASCII. -/
def validTagPunct : List Nat :=
  [33, 35, 36, 37, 38, 40, 41, 42, 43, 45, 46, 47, 58, 59, 60, 61, 62, 63,
   64, 91, 93, 94, 95, 123, 124, 125, 126, 32]

/-- `encoding/json.isValidTag`: nonempty, and every rune a letter, a digit or
one of the accepted punctuation runes (letters and digits here restricted to
ASCII; the repository's tags are ASCII). -/
def isValidTag (s : String) : Bool :=
  !s.isEmpty && s.data.all fun c =>
    c.isAlpha || c.isDigit || validTagPunct.contains c.toNat

/-- The JSON object key `encoding/json` uses for a struct field: the part of
the `json` tag value before the first comma when that is a valid tag name,
otherwise the Go field name. -/
def jsonFieldName (goName tag : String) : String :=
  match structTagLookup "json" tag with
  | none => goName
  | some v =>
      let nm := String.mk (v.data.takeWhile (fun c => c ≠ ','))
      if isValidTag nm then nm else goName

/-! ## JSON values, response bodies, responses -/

inductive JsonValue where
  | str (s : String)
  | int (n : Int)
deriving DecidableEq

/-- A marshalled JSON document: an object as an ordered key/value list. -/
abbrev JsonObject := List (String × JsonValue)

inductive Body where
  | empty
  | text (s : String)
  | json (o : JsonObject)
deriving DecidableEq

structure Response where
  status : Nat
  contentType : Option String
  body : Body
deriving DecidableEq

/-- `sendErrorMessage` from handlers.go: plain-text body with the given
status. -/
def sendErrorMessage (msg : String) (status : Nat) : Response :=
  { status := status, contentType := some "text/plain; charset=UTF-8",
    body := Body.text msg }

/-- `sendJSONResponse` from handlers.go, for an already-marshalled object
(marshalling of these fixed structs cannot fail). -/
def sendJSONResponse (o : JsonObject) : Response :=
  { status := 200, contentType := some "application/json; charset=UTF-8",
    body := Body.json o }

/-! ## The three document structs and their marshalled forms -/

structure userDocument where
  UserID : String
  Name : String
  Credit : Int
deriving DecidableEq

structure textDocument where
  Text : String
deriving DecidableEq

structure hashDocument where
  Hash : String
deriving DecidableEq

/-- `json.Marshal` of `userDocument`; the field tag is the source's literal
tag string. `UserID` carries the malformed tag, `Name` and `Credit` none. -/
def marshalUserDocument (d : userDocument) : JsonObject :=
  [(jsonFieldName "UserID" "json:user_id", JsonValue.str d.UserID),
   (jsonFieldName "Name" "", JsonValue.str d.Name),
   (jsonFieldName "Credit" "", JsonValue.int d.Credit)]

/-- `json.Marshal` of `textDocument` (tag string "json:text"). -/
def marshalTextDocument (d : textDocument) : JsonObject :=
  [(jsonFieldName "Text" "json:text", JsonValue.str d.Text)]

/-- `json.Marshal` of `hashDocument` (tag string "json:hash"). -/
def marshalHashDocument (d : hashDocument) : JsonObject :=
  [(jsonFieldName "Hash" "json:hash", JsonValue.str d.Hash)]

/-! ## The database and fault injection -/

/-- The two tables of schema.sql: `"user" (user_id, name, credit)` and
`hash_text (hash, text)`. -/
structure DB where
  users : List (String × String × Int)
  hashText : List (String × String)
deriving DecidableEq

/-- Which storage statement faults (returns a non-`ErrNoRows` error). -/
structure Faults where
  authQuery : Bool      -- SELECT 1 FROM "user"            (userIsAuthorized)
  userRowQuery : Bool   -- SELECT name, credit FROM "user" (userHandler)
  creditQuery : Bool    -- SELECT credit FROM "user"       (userHasCredit)
  insertExec : Bool     -- INSERT INTO hash_text           (insertText)
  updateExec : Bool     -- UPDATE "user" SET credit        (insertText)
  textQuery : Bool      -- SELECT text FROM hash_text      (textHashHandler)
deriving DecidableEq

def noFaults : Faults :=
  { authQuery := false, userRowQuery := false, creditQuery := false,
    insertExec := false, updateExec := false, textQuery := false }

/-- Outcome of `row.Scan`: a value, `sql.ErrNoRows`, or another error. -/
inductive Scan (α : Type) where
  | ok (a : α)
  | noRows
  | fault
deriving DecidableEq

/-- The `"user"` row for `uid` (name and credit), by primary key. -/
def DB.findUser (db : DB) (uid : String) : Option (String × Int) :=
  (db.users.find? (fun u => u.1 == uid)).map (fun u => u.2)

/-- The `hash_text.text` value for `hash`, by primary key. -/
def DB.findText (db : DB) (hash : String) : Option String :=
  (db.hashText.find? (fun r => r.1 == hash)).map (fun r => r.2)

/-- `SELECT 1 FROM "user" WHERE user_id = $1` scanned into a bool. -/
def queryUserExists (f : Faults) (db : DB) (uid : String) : Scan Bool :=
  if f.authQuery then Scan.fault
  else
    match db.findUser uid with
    | some _ => Scan.ok true
    | none => Scan.noRows

/-- `SELECT name, credit FROM "user" WHERE user_id = $1`. -/
def queryNameCredit (f : Faults) (db : DB) (uid : String) : Scan (String × Int) :=
  if f.userRowQuery then Scan.fault
  else
    match db.findUser uid with
    | some nc => Scan.ok nc
    | none => Scan.noRows

/-- `SELECT credit FROM "user" WHERE user_id = $1`. -/
def queryCredit (f : Faults) (db : DB) (uid : String) : Scan Int :=
  if f.creditQuery then Scan.fault
  else
    match db.findUser uid with
    | some nc => Scan.ok nc.2
    | none => Scan.noRows

/-- `SELECT text FROM hash_text WHERE hash = $1`. -/
def queryText (f : Faults) (db : DB) (hash : String) : Scan String :=
  if f.textQuery then Scan.fault
  else
    match db.findText hash with
    | some t => Scan.ok t
    | none => Scan.noRows

/-! ## Requests and the authorization gate -/

/-- `r.Header.Get("X-HashText-User-ID")`: the empty string when the header is
absent. -/
def headerGet (header : Option String) : String :=
  header.getD ""

/-- `userIsAuthorized` from handlers.go. -/
def userIsAuthorized (f : Faults) (db : DB) (header : Option String) : Bool :=
  let userID := headerGet header
  if userID = "" then false
  else
    match queryUserExists f db userID with
    | Scan.noRows => false
    | Scan.fault => false          -- logged, then treated as unauthorized
    | Scan.ok found => found

/-- `wrapHandler` from handlers.go: 401 with empty body unless the gate
passes; the wrapped handler's result is used only in the authorized branch. -/
def wrapHandler (f : Faults) (db : DB) (header : Option String)
    (handler : Response × DB) : Response × DB :=
  if userIsAuthorized f db header then handler
  else ({ status := 401, contentType := none, body := Body.empty }, db)

/-! ## Operation handlers -/

/-- `userHandler` from handlers.go. -/
def userHandler (f : Faults) (db : DB) (header : Option String) :
    Response × DB :=
  let userID := headerGet header
  match queryNameCredit f db userID with
  | Scan.noRows =>
      ({ status := 404, contentType := none, body := Body.empty }, db)
  | Scan.fault =>
      ({ status := 500, contentType := none, body := Body.empty }, db)
  | Scan.ok nc =>
      (sendJSONResponse (marshalUserDocument
        { UserID := userID, Name := nc.1, Credit := nc.2 }), db)

/-- `userHasCredit` from handlers.go: any scan error, `ErrNoRows` included,
is logged and reported as "no credit". -/
def userHasCredit (f : Faults) (db : DB) (uid : String) : Bool :=
  match queryCredit f db uid with
  | Scan.ok credit => decide (0 < credit)
  | Scan.noRows => false
  | Scan.fault => false

/-- `INSERT INTO hash_text (hash, text) VALUES ($1, $2) ON CONFLICT DO
NOTHING`: append the row only when no row with that primary key exists. -/
def insertIfAbsent (rows : List (String × String)) (hash text : String) :
    List (String × String) :=
  if (rows.find? (fun r => r.1 == hash)).isSome then rows
  else rows ++ [(hash, text)]

/-- `UPDATE "user" SET credit = GREATEST(0, credit - 1) WHERE user_id = $1`. -/
def debitUser (users : List (String × String × Int)) (uid : String) :
    List (String × String × Int) :=
  users.map (fun u => if u.1 == uid then (u.1, u.2.1, max 0 (u.2.2 - 1)) else u)

/-- `insertText` from handlers.go: upsert the text, then debit the user; a
fault in either exec is logged and ends the function (the insert fault skips
the debit). -/
def insertText (f : Faults) (text hash userID : String) (db : DB) : DB :=
  if f.insertExec then db
  else
    let db1 : DB := { db with hashText := insertIfAbsent db.hashText hash text }
    if f.updateExec then db1
    else { db1 with users := debitUser db1.users userID }

/-- The request body of POST /text as the handler observes it: the
`ioutil.ReadAll` fault, the `json.Unmarshal` failure, or the decoded
`textDocument` (Go's decoder leaves `Text` empty when the field is absent). -/
inductive ParsedBody where
  | readFault
  | malformed
  | doc (td : textDocument)
deriving DecidableEq

/-- `textHandler` from handlers.go. -/
def textHandler (sha : String → List Nat) (f : Faults) (db : DB)
    (header : Option String) (body : ParsedBody) : Response × DB :=
  let userID := headerGet header
  if !userHasCredit f db userID then
    (sendErrorMessage "You are out of credit. Please pay us more money." 402, db)
  else
    match body with
    | ParsedBody.readFault =>
        ({ status := 500, contentType := none, body := Body.empty }, db)
    | ParsedBody.malformed =>
        (sendErrorMessage "Could not decode the request body as JSON" 400, db)
    | ParsedBody.doc td =>
        let hash := sha256String sha td.Text
        let db2 := insertText f td.Text hash userID db
        (sendJSONResponse (marshalHashDocument { Hash := hash }), db2)

/-- `textHashHandler` from handlers.go; `hashVar` is `mux.Vars(r)["hash"]`. -/
def textHashHandler (f : Faults) (db : DB) (hashVar : String) :
    Response × DB :=
  match queryText f db hashVar with
  | Scan.noRows =>
      ({ status := 404, contentType := none, body := Body.empty }, db)
  | Scan.fault =>
      ({ status := 500, contentType := none, body := Body.empty }, db)
  | Scan.ok text =>
      (sendJSONResponse (marshalTextDocument { Text := text }), db)

/-! ## The three routes of `makeRouter` -/

/-- `GET /user/me`. -/
def routeUserMe (f : Faults) (db : DB) (header : Option String) :
    Response × DB :=
  wrapHandler f db header (userHandler f db header)

/-- `POST /text`. -/
def routePostText (sha : String → List Nat) (f : Faults) (db : DB)
    (header : Option String) (body : ParsedBody) : Response × DB :=
  wrapHandler f db header (textHandler sha f db header body)

/-- `GET /text/{hash}`. -/
def routeGetTextHash (f : Faults) (db : DB) (header : Option String)
    (hashVar : String) : Response × DB :=
  wrapHandler f db header (textHashHandler f db hashVar)

/-! ## Helper lemmas -/

theorem noFaults_insertExec : noFaults.insertExec = false := rfl

theorem noFaults_updateExec : noFaults.updateExec = false := rfl

theorem noFaults_textQuery : noFaults.textQuery = false := rfl

/-- Debiting a user rewrites exactly the rows with that key, so the first
matching row is the old one with `GREATEST(0, credit - 1)` applied. -/
theorem find?_debitUser (users : List (String × String × Int)) (uid : String) :
    (debitUser users uid).find? (fun u => u.1 == uid) =
      (users.find? (fun u => u.1 == uid)).map
        (fun u => (u.1, u.2.1, max 0 (u.2.2 - 1))) := by
  induction users with
  | nil => rfl
  | cons hd tl ih =>
      by_cases h : hd.1 = uid
      · simp [debitUser, List.find?_cons, h]
      · simpa [debitUser, List.find?_cons, h] using ih

/-- The upsert leaves the first row at `hash` in place, or appends the new
row when none exists. -/
theorem find?_insertIfAbsent (rows : List (String × String)) (hash text : String) :
    (insertIfAbsent rows hash text).find? (fun r => r.1 == hash) =
      some ((rows.find? (fun r => r.1 == hash)).getD (hash, text)) := by
  unfold insertIfAbsent
  cases h : rows.find? (fun r => r.1 == hash) with
  | some r => simp [h]
  | none => simp [h]

theorem nodup_keys_insertIfAbsent (rows : List (String × String))
    (hash text : String) (hnd : (rows.map Prod.fst).Nodup) :
    ((insertIfAbsent rows hash text).map Prod.fst).Nodup := by
  unfold insertIfAbsent
  cases h : rows.find? (fun r => r.1 == hash) with
  | some r => simpa [h] using hnd
  | none =>
      simp only [h, Option.isSome_none, Bool.false_eq_true, if_false,
        List.map_append, List.map_cons, List.map_nil]
      rw [List.nodup_append]
      refine ⟨hnd, List.nodup_singleton _, ?_⟩
      intro a ha hb
      simp only [List.mem_singleton] at hb
      subst hb
      obtain ⟨r, hr, hfst⟩ := List.mem_map.mp ha
      exact absurd (by simp [hfst]) (List.find?_eq_none.mp h r hr)

theorem countP_key_le_one (rows : List (String × String)) (hash : String)
    (hnd : (rows.map Prod.fst).Nodup) :
    rows.countP (fun r => r.1 == hash) ≤ 1 := by
  induction rows with
  | nil => simp
  | cons hd tl ih =>
      simp only [List.map_cons, List.nodup_cons] at hnd
      by_cases h : hd.1 = hash
      · have hz : tl.countP (fun r => r.1 == hash) = 0 := by
          rw [List.countP_eq_zero]
          intro r hr
          have : r.1 ≠ hash := by
            intro he
            exact hnd.1 (h ▸ he ▸ List.mem_map_of_mem Prod.fst hr)
          simp [this]
        simp [List.countP_cons, h, hz]
      · simpa [List.countP_cons, h] using ih hnd.2

/-- After the upsert there is exactly one row with that hash key. -/
theorem countP_insertIfAbsent (rows : List (String × String))
    (hash text : String) (hnd : (rows.map Prod.fst).Nodup) :
    (insertIfAbsent rows hash text).countP (fun r => r.1 == hash) = 1 := by
  unfold insertIfAbsent
  cases h : rows.find? (fun r => r.1 == hash) with
  | none =>
      have hz : rows.countP (fun r => r.1 == hash) = 0 := by
        rw [List.countP_eq_zero]
        exact fun r hr => by simpa using List.find?_eq_none.mp h r hr
      simp [h, hz]
  | some r =>
      have hpr := List.find?_some h
      have hpos : 0 < rows.countP (fun x => x.1 == hash) :=
        List.countP_pos_iff.mpr ⟨r, List.mem_of_find?_eq_some h, hpr⟩
      have := countP_key_le_one rows hash hnd
      simp only [h, Option.isSome_some, if_true]
      omega

/-- Every character `hexEncode` emits is a lowercase hex digit, provided the
input is made of bytes. -/
theorem hexEncode_lowercase (bs : List Nat) (hb : ∀ b ∈ bs, b < 256) :
    ∀ ch ∈ (hexEncode bs).data, ch ∈ ("0123456789abcdef").data := by
  have hdigit : ∀ n, n < 16 → hexDigitChar n ∈ ("0123456789abcdef").data := by
    intro n hn
    interval_cases n <;> decide
  induction bs with
  | nil => intro ch hch; simp [hexEncode] at hch
  | cons b tl ih =>
      intro ch hch
      have hb0 := hb b (List.mem_cons_self b tl)
      simp only [hexEncode, List.flatMap_cons, List.mem_append] at hch
      rcases hch with hch | hch
      · simp only [hexEncodeByte, List.mem_cons, List.not_mem_nil, or_false] at hch
        rcases hch with rfl | rfl
        · exact hdigit _ (Nat.div_lt_of_lt_mul (by omega))
        · exact hdigit _ (Nat.mod_lt _ (by omega))
      · exact ih (fun x hx => hb x (List.mem_cons_of_mem b hx)) ch hch

/-- A user present with positive credit passes both the gate and the credit
check (no faults). -/
theorem auth_and_credit (db : DB) (uid n : String) (c : Int)
    (hne : uid ≠ "") (hu : db.findUser uid = some (n, c)) (hc : 0 < c) :
    userIsAuthorized noFaults db (some uid) = true ∧
    userHasCredit noFaults db uid = true := by
  constructor
  · simp [userIsAuthorized, headerGet, hne, queryUserExists, noFaults, hu]
  · simp [userHasCredit, queryCredit, noFaults, hu, hc]

/-- A fault-free authorized submission with positive credit: the handler
returns the hash document and the state after upsert and debit. -/
theorem routePostText_success (sha : String → List Nat) (db : DB)
    (uid s n : String) (c : Int)
    (hne : uid ≠ "") (hu : db.findUser uid = some (n, c)) (hc : 0 < c) :
    routePostText sha noFaults db (some uid) (ParsedBody.doc ⟨s⟩) =
      (sendJSONResponse (marshalHashDocument ⟨sha256String sha s⟩),
       { users := debitUser db.users uid,
         hashText := insertIfAbsent db.hashText (sha256String sha s) s }) := by
  obtain ⟨hauth, hcred⟩ := auth_and_credit db uid n c hne hu hc
  simp [routePostText, wrapHandler, hauth, textHandler, headerGet, hcred,
    insertText, noFaults_insertExec, noFaults_updateExec]

/-- An authorized caller whose credit is not positive receives the fixed 402
response from POST /text, whatever the body, and the database is unchanged. -/
theorem routePostText_out_of_credit (sha : String → List Nat) (db : DB)
    (header : Option String) (body : ParsedBody) (n : String) (c : Int)
    (hne : headerGet header ≠ "")
    (hu : db.findUser (headerGet header) = some (n, c)) (hc : c ≤ 0) :
    routePostText sha noFaults db header body =
      (sendErrorMessage "You are out of credit. Please pay us more money." 402,
       db) := by
  have hauth : userIsAuthorized noFaults db header = true := by
    simp [userIsAuthorized, hne, queryUserExists, noFaults, hu]
  have hncred : userHasCredit noFaults db (headerGet header) = false := by
    simp [userHasCredit, queryCredit, noFaults, hu, decide_eq_false_iff_not]
    omega
  simp [routePostText, wrapHandler, hauth, textHandler, hncred]

/-- Unpack a successful `findUser` into the underlying `find?` row. -/
theorem findUser_elim (db : DB) (uid n : String) (c : Int)
    (hu : db.findUser uid = some (n, c)) :
    ∃ u, db.users.find? (fun x => x.1 == uid) = some u ∧ u.2 = (n, c) := by
  unfold DB.findUser at hu
  cases hf : db.users.find? (fun x => x.1 == uid) with
  | none => rw [hf] at hu; cases hu
  | some u => exact ⟨u, rfl, by rw [hf] at hu; exact Option.some.inj hu⟩

/-- Debiting a present user leaves them present with `GREATEST(0, c - 1)`,
whatever the content table holds. -/
theorem findUser_after_debit (db : DB) (uid n : String) (c : Int)
    (hu : db.findUser uid = some (n, c)) (rows : List (String × String)) :
    (DB.mk (debitUser db.users uid) rows).findUser uid =
      some (n, max 0 (c - 1)) := by
  obtain ⟨u, hfind, hu2⟩ := findUser_elim db uid n c hu
  simp [DB.findUser, find?_debitUser, hfind, hu2]

/-- After upserting `s` at its hash, the content lookup at that hash yields
`s`, provided any pre-existing row at that hash already held `s`. -/
theorem findText_after_insert (db : DB) (hash s : String)
    (hcol : db.findText hash = none ∨ db.findText hash = some s)
    (users : List (String × String × Int)) :
    (DB.mk users (insertIfAbsent db.hashText hash s)).findText hash =
      some s := by
  unfold DB.findText at hcol ⊢
  rw [find?_insertIfAbsent]
  rcases hcol with h | h
  · have hn : db.hashText.find? (fun r => r.1 == hash) = none := by
      cases hf : db.hashText.find? (fun r => r.1 == hash) with
      | none => rfl
      | some r => rw [hf] at h; cases h
    simp [hn]
  · cases hf : db.hashText.find? (fun r => r.1 == hash) with
    | none => rw [hf] at h; cases h
    | some r =>
        rw [hf] at h
        simpa using h

/-! ## Claim theorems -/

/-- C2: once the content insertion step succeeds (neither exec faults), the
submitting user's credit becomes exactly `max 0 (c - 1)`, with no condition
on the content store (new row and existing row alike), and the debited value
is never negative. -/
theorem credit_debit_is_max_zero (f : Faults) (db : DB)
    (text hash uid n : String) (c : Int)
    (hins : f.insertExec = false) (hupd : f.updateExec = false)
    (hu : db.findUser uid = some (n, c)) :
    (insertText f text hash uid db).findUser uid = some (n, max 0 (c - 1)) ∧
    0 ≤ max 0 (c - 1) := by
  constructor
  · obtain ⟨u, hfind, hu2⟩ :
        ∃ u, db.users.find? (fun x => x.1 == uid) = some u ∧ u.2 = (n, c) := by
      unfold DB.findUser at hu
      cases hf : db.users.find? (fun x => x.1 == uid) with
      | none => rw [hf] at hu; cases hu
      | some u => exact ⟨u, rfl, by rw [hf] at hu; exact Option.some.inj hu⟩
    simp [insertText, hins, hupd, DB.findUser, find?_debitUser, hfind, hu2]
  · exact le_max_left 0 (c - 1)

/-- Witness for C2: Jane starts at 1000000 and ends at 999999. -/
theorem credit_debit_is_max_zero_witness :
    noFaults.insertExec = false ∧ noFaults.updateExec = false ∧
    (DB.mk [("u1", "Jane", 1000000)] []).findUser "u1" =
      some ("Jane", 1000000) ∧
    ((insertText noFaults "hi" "ab" "u1"
        (DB.mk [("u1", "Jane", 1000000)] [])).findUser "u1" =
      some ("Jane", max 0 (1000000 - 1)) ∧
     (0 : Int) ≤ max 0 (1000000 - 1)) :=
  ⟨rfl, rfl, by decide,
   credit_debit_is_max_zero noFaults (DB.mk [("u1", "Jane", 1000000)] [])
     "hi" "ab" "u1" "Jane" 1000000 rfl rfl (by decide)⟩

/-- C4: an authorized caller with credit ≤ 0 gets exactly the 402 response,
Content-Type `text/plain; charset=UTF-8`, the fixed message as body, and
both stores are left untouched. -/
theorem out_of_credit_payment_required (sha : String → List Nat) (db : DB)
    (header : Option String) (body : ParsedBody) (n : String) (c : Int)
    (hne : headerGet header ≠ "")
    (hu : db.findUser (headerGet header) = some (n, c))
    (hc : c ≤ 0) :
    routePostText sha noFaults db header body =
      ({ status := 402, contentType := some "text/plain; charset=UTF-8",
         body := Body.text "You are out of credit. Please pay us more money." },
       db) :=
  routePostText_out_of_credit sha db header body n c hne hu hc

/-- Witness for C4: Petra (credit 0) posting any text. -/
theorem out_of_credit_payment_required_witness :
    headerGet (some "u2") ≠ "" ∧
    (DB.mk [("u2", "Petra", 0)] []).findUser (headerGet (some "u2")) =
      some ("Petra", 0) ∧
    (0 : Int) ≤ 0 ∧
    routePostText (fun _ => []) noFaults (DB.mk [("u2", "Petra", 0)] [])
        (some "u2") (ParsedBody.doc ⟨"x"⟩) =
      ({ status := 402, contentType := some "text/plain; charset=UTF-8",
         body := Body.text "You are out of credit. Please pay us more money." },
       DB.mk [("u2", "Petra", 0)] []) :=
  ⟨by decide, by decide, by decide,
   out_of_credit_payment_required (fun _ => []) (DB.mk [("u2", "Petra", 0)] [])
     (some "u2") (ParsedBody.doc ⟨"x"⟩) "Petra" 0 (by decide) (by decide)
     (by decide)⟩

/-- C5: an absent, empty or unknown token makes all three routes answer 401
with empty body and unchanged database; the wrapped handler is irrelevant to
the outcome. -/
theorem unauthorized_requests_rejected (sha : String → List Nat) (f : Faults)
    (db : DB) (header : Option String) (body : ParsedBody) (hashVar : String)
    (hf : f.authQuery = false)
    (h : headerGet header = "" ∨ db.findUser (headerGet header) = none) :
    routeUserMe f db header =
      ({ status := 401, contentType := none, body := Body.empty }, db) ∧
    routePostText sha f db header body =
      ({ status := 401, contentType := none, body := Body.empty }, db) ∧
    routeGetTextHash f db header hashVar =
      ({ status := 401, contentType := none, body := Body.empty }, db) ∧
    ∀ handler : Response × DB,
      wrapHandler f db header handler =
        ({ status := 401, contentType := none, body := Body.empty }, db) := by
  have hauth : userIsAuthorized f db header = false := by
    rcases h with h | h
    · simp [userIsAuthorized, h]
    · by_cases he : headerGet header = ""
      · simp [userIsAuthorized, he]
      · simp [userIsAuthorized, he, queryUserExists, hf, h]
  refine ⟨?_, ?_, ?_, fun handler => ?_⟩ <;>
    simp [routeUserMe, routePostText, routeGetTextHash, wrapHandler, hauth]

/-- Witness for C5: no header at all against a nonempty user table. -/
theorem unauthorized_requests_rejected_witness :
    noFaults.authQuery = false ∧
    (headerGet none = "" ∨
      (DB.mk [("u1", "Jane", 5)] []).findUser (headerGet none) = none) ∧
    routeUserMe noFaults (DB.mk [("u1", "Jane", 5)] []) none =
      ({ status := 401, contentType := none, body := Body.empty },
       DB.mk [("u1", "Jane", 5)] []) :=
  ⟨rfl, Or.inl rfl,
   (unauthorized_requests_rejected (fun _ => []) noFaults
     (DB.mk [("u1", "Jane", 5)] []) none (ParsedBody.doc ⟨"x"⟩) "h" rfl
     (Or.inl rfl)).1⟩

/-- C6 (code bug): the struct tags `json:user_id`, "json:text" and
"json:hash" are syntactically malformed (no quotes around the value), so
`reflect.StructTag.Lookup` finds no `json` key and `json.Marshal` falls back
to the Go field names: the success bodies carry the keys UserID, Name,
Credit, Hash and Text instead of the documented user_id, name, credit, hash
and text.  The final conjunct shows the well-formed tag would have produced
the documented key. -/
theorem json_field_names_are_go_names :
    (marshalUserDocument ⟨"u", "Jane", 1000000⟩).map Prod.fst =
      ["UserID", "Name", "Credit"] ∧
    (marshalHashDocument ⟨"h"⟩).map Prod.fst = ["Hash"] ∧
    (marshalTextDocument ⟨"t"⟩).map Prod.fst = ["Text"] ∧
    structTagLookup "json" "json:user_id" = none ∧
    jsonFieldName "UserID" "json:\"user_id\"" = "user_id" := by
  refine ⟨?_, ?_, ?_, ?_, ?_⟩ <;> decide

/-- C7: a storage fault at the hash_text insert returns from insertText
before the debit: the whole database, in particular the submitting user's
credit, is unchanged. -/
theorem insert_fault_skips_debit (f : Faults) (text hash uid : String)
    (db : DB) (hins : f.insertExec = true) :
    insertText f text hash uid db = db ∧
    (insertText f text hash uid db).findUser uid = db.findUser uid := by
  constructor <;> simp [insertText, hins]

/-- Witness for C7 with the insert-exec fault switched on. -/
theorem insert_fault_skips_debit_witness :
    ({ noFaults with insertExec := true } : Faults).insertExec = true ∧
    insertText { noFaults with insertExec := true } "hi" "ab" "u1"
        (DB.mk [("u1", "Jane", 5)] []) =
      DB.mk [("u1", "Jane", 5)] [] ∧
    (insertText { noFaults with insertExec := true } "hi" "ab" "u1"
        (DB.mk [("u1", "Jane", 5)] [])).findUser "u1" =
      (DB.mk [("u1", "Jane", 5)] []).findUser "u1" := by
  refine ⟨rfl, ?_⟩
  exact insert_fault_skips_debit { noFaults with insertExec := true }
    "hi" "ab" "u1" (DB.mk [("u1", "Jane", 5)] []) rfl

/-- C8: the credit check runs before the body is read or parsed: a caller
with credit ≤ 0 receives the 402 outcome for a read fault, a malformed body
and a well-formed body alike, and can never receive 400. -/
theorem credit_check_precedes_body_parse (sha : String → List Nat) (db : DB)
    (header : Option String) (n : String) (c : Int)
    (hne : headerGet header ≠ "")
    (hu : db.findUser (headerGet header) = some (n, c))
    (hc : c ≤ 0) :
    (∀ body : ParsedBody,
      (routePostText sha noFaults db header body).1 =
        sendErrorMessage "You are out of credit. Please pay us more money."
          402) ∧
    ∀ body : ParsedBody,
      (routePostText sha noFaults db header body).1.status ≠ 400 := by
  have hresp := fun body =>
    routePostText_out_of_credit sha db header body n c hne hu hc
  refine ⟨fun body => by rw [hresp body],
    fun body => by rw [hresp body]; simp [sendErrorMessage]⟩

/-- Witness for C8: Petra with a malformed body still gets 402, not 400. -/
theorem credit_check_precedes_body_parse_witness :
    headerGet (some "u2") ≠ "" ∧
    (DB.mk [("u2", "Petra", 0)] []).findUser (headerGet (some "u2")) =
      some ("Petra", 0) ∧
    (0 : Int) ≤ 0 ∧
    ((∀ body : ParsedBody,
      (routePostText (fun _ => []) noFaults (DB.mk [("u2", "Petra", 0)] [])
          (some "u2") body).1 =
        sendErrorMessage "You are out of credit. Please pay us more money."
          402) ∧
     ∀ body : ParsedBody,
      (routePostText (fun _ => []) noFaults (DB.mk [("u2", "Petra", 0)] [])
          (some "u2") body).1.status ≠ 400) :=
  ⟨by decide, by decide, by decide,
   credit_check_precedes_body_parse (fun _ => [])
     (DB.mk [("u2", "Petra", 0)] []) (some "u2") "Petra" 0 (by decide)
     (by decide) (by decide)⟩

/-- C9: when the hash_text insert faults, the caller still receives the 200
hash document (the fault is only logged and the database is unchanged), and
the response is the same whatever the insert and debit fault flags are. -/
theorem insert_fault_still_returns_hash (sha : String → List Nat) (f : Faults)
    (db : DB) (header : Option String) (td : textDocument)
    (hins : f.insertExec = true)
    (hcred : userHasCredit f db (headerGet header) = true) :
    textHandler sha f db header (ParsedBody.doc td) =
      (sendJSONResponse (marshalHashDocument ⟨sha256String sha td.Text⟩),
       db) ∧
    ∀ g : Faults, userHasCredit g db (headerGet header) = true →
      (textHandler sha g db header (ParsedBody.doc td)).1 =
        (textHandler sha f db header (ParsedBody.doc td)).1 := by
  constructor
  · simp [textHandler, hcred, insertText, hins]
  · intro g hg
    simp [textHandler, hcred, hg]

/-- Witness for C9 with the insert-exec fault switched on. -/
theorem insert_fault_still_returns_hash_witness :
    ({ noFaults with insertExec := true } : Faults).insertExec = true ∧
    userHasCredit { noFaults with insertExec := true }
      (DB.mk [("u1", "Jane", 5)] []) (headerGet (some "u1")) = true ∧
    textHandler (fun _ => [171, 5]) { noFaults with insertExec := true }
        (DB.mk [("u1", "Jane", 5)] []) (some "u1") (ParsedBody.doc ⟨"hi"⟩) =
      (sendJSONResponse (marshalHashDocument
         ⟨sha256String (fun _ => [171, 5]) "hi"⟩),
       DB.mk [("u1", "Jane", 5)] []) :=
  ⟨rfl, by decide,
   (insert_fault_still_returns_hash (fun _ => [171, 5])
     { noFaults with insertExec := true } (DB.mk [("u1", "Jane", 5)] [])
     (some "u1") ⟨"hi"⟩ rfl (by decide)).1⟩

/-- C10: a faulting credit lookup, or an absent user row, makes the text
submission fail with the 402 out-of-credit outcome (message included),
never with 500 or 404, and leaves the database unchanged. -/
theorem credit_lookup_failure_gives_payment_required
    (sha : String → List Nat) (f : Faults) (db : DB) (header : Option String)
    (body : ParsedBody)
    (h : f.creditQuery = true ∨ db.findUser (headerGet header) = none) :
    textHandler sha f db header body =
      (sendErrorMessage "You are out of credit. Please pay us more money." 402,
       db) := by
  have hn : userHasCredit f db (headerGet header) = false := by
    rcases h with h | h
    · simp [userHasCredit, queryCredit, h]
    · cases hc : f.creditQuery <;> simp [userHasCredit, queryCredit, h, hc]
  simp [textHandler, hn]

/-- C1: a fault-free authorized submission with positive credit returns the
hash document whose value is the lowercase hex encoding of the SHA-256
digest of `s`, and an immediately following authorized GET /text/ at that
hash returns exactly `s`. -/
theorem submit_then_lookup_roundtrip (sha : String → List Nat) (db : DB)
    (uid s n : String) (c : Int)
    (hne : uid ≠ "")
    (hu : db.findUser uid = some (n, c)) (hc : 0 < c)
    (hbytes : ∀ b ∈ sha s, b < 256)
    (hcol : db.findText (sha256String sha s) = none ∨
            db.findText (sha256String sha s) = some s) :
    (routePostText sha noFaults db (some uid) (ParsedBody.doc ⟨s⟩)).1 =
      sendJSONResponse (marshalHashDocument ⟨sha256String sha s⟩) ∧
    sha256String sha s = hexEncode (sha s) ∧
    (∀ ch ∈ (sha256String sha s).data, ch ∈ ("0123456789abcdef").data) ∧
    routeGetTextHash noFaults
        (routePostText sha noFaults db (some uid) (ParsedBody.doc ⟨s⟩)).2
        (some uid) (sha256String sha s) =
      (sendJSONResponse (marshalTextDocument ⟨s⟩),
       (routePostText sha noFaults db (some uid) (ParsedBody.doc ⟨s⟩)).2) := by
  have hpost := routePostText_success sha db uid s n c hne hu hc
  refine ⟨by rw [hpost], rfl, hexEncode_lowercase (sha s) hbytes, ?_⟩
  rw [hpost]
  have hu1 := findUser_after_debit db uid n c hu
    (insertIfAbsent db.hashText (sha256String sha s) s)
  have hauth : userIsAuthorized noFaults
      (DB.mk (debitUser db.users uid)
        (insertIfAbsent db.hashText (sha256String sha s) s))
      (some uid) = true := by
    simp [userIsAuthorized, headerGet, hne, queryUserExists, noFaults, hu1]
  have htext := findText_after_insert db (sha256String sha s) s hcol
    (debitUser db.users uid)
  simp [routeGetTextHash, wrapHandler, hauth, textHashHandler, queryText,
    noFaults_textQuery, htext]

/-- Witness for C1: Jane submits "hi" against an empty content table; the
digest function is fixed to the two bytes 171 and 5 ("ab05" in hex). -/
theorem submit_then_lookup_roundtrip_witness :
    ("u1" : String) ≠ "" ∧
    (DB.mk [("u1", "Jane", 5)] []).findUser "u1" = some ("Jane", 5) ∧
    ((0 : Int) < 5) ∧
    (∀ b ∈ (fun _ : String => ([171, 5] : List Nat)) "hi", b < 256) ∧
    ((DB.mk [("u1", "Jane", 5)] []).findText
        (sha256String (fun _ : String => ([171, 5] : List Nat)) "hi") =
      none) ∧
    (routePostText (fun _ : String => ([171, 5] : List Nat)) noFaults
        (DB.mk [("u1", "Jane", 5)] []) (some "u1")
        (ParsedBody.doc ⟨"hi"⟩)).1 =
      sendJSONResponse (marshalHashDocument
        ⟨sha256String (fun _ : String => ([171, 5] : List Nat)) "hi"⟩) ∧
    routeGetTextHash noFaults
        (routePostText (fun _ : String => ([171, 5] : List Nat)) noFaults
          (DB.mk [("u1", "Jane", 5)] []) (some "u1")
          (ParsedBody.doc ⟨"hi"⟩)).2
        (some "u1")
        (sha256String (fun _ : String => ([171, 5] : List Nat)) "hi") =
      (sendJSONResponse (marshalTextDocument ⟨"hi"⟩),
       (routePostText (fun _ : String => ([171, 5] : List Nat)) noFaults
          (DB.mk [("u1", "Jane", 5)] []) (some "u1")
          (ParsedBody.doc ⟨"hi"⟩)).2) :=
  ⟨by decide, by decide, by decide, by decide, rfl,
   (submit_then_lookup_roundtrip (fun _ : String => ([171, 5] : List Nat))
     (DB.mk [("u1", "Jane", 5)] []) "u1" "hi" "Jane" 5 (by decide)
     (by decide) (by decide) (by decide) (Or.inl rfl)).1,
   (submit_then_lookup_roundtrip (fun _ : String => ([171, 5] : List Nat))
     (DB.mk [("u1", "Jane", 5)] []) "u1" "hi" "Jane" 5 (by decide)
     (by decide) (by decide) (by decide) (Or.inl rfl)).2.2.2⟩

/-- C3: submitting the same string twice (any two users, each with positive
credit at their turn, no faults): both submissions succeed with the same
hash document, the content table afterwards has exactly one row for that
hash and it holds `s`, and each submission debits its submitter by exactly
one. -/
theorem resubmission_idempotent_storage_nonidempotent_billing
    (sha : String → List Nat) (db db1 db2 : DB) (r1 r2 : Response)
    (s uid1 uid2 n1 n2 : String) (c1 c2 : Int)
    (hne1 : uid1 ≠ "") (hne2 : uid2 ≠ "")
    (hu1 : db.findUser uid1 = some (n1, c1)) (hc1 : 0 < c1)
    (hs1 : routePostText sha noFaults db (some uid1) (ParsedBody.doc ⟨s⟩) =
      (r1, db1))
    (hu2 : db1.findUser uid2 = some (n2, c2)) (hc2 : 0 < c2)
    (hs2 : routePostText sha noFaults db1 (some uid2) (ParsedBody.doc ⟨s⟩) =
      (r2, db2))
    (hnodup : (db.hashText.map Prod.fst).Nodup)
    (hcol : db.findText (sha256String sha s) = none ∨
            db.findText (sha256String sha s) = some s) :
    r1 = sendJSONResponse (marshalHashDocument ⟨sha256String sha s⟩) ∧
    r2 = sendJSONResponse (marshalHashDocument ⟨sha256String sha s⟩) ∧
    db2.hashText.countP (fun r => r.1 == sha256String sha s) = 1 ∧
    db2.findText (sha256String sha s) = some s ∧
    db1.findUser uid1 = some (n1, c1 - 1) ∧
    db2.findUser uid2 = some (n2, c2 - 1) := by
  have h1 := routePostText_success sha db uid1 s n1 c1 hne1 hu1 hc1
  rw [hs1] at h1
  injection h1 with hr1 hdb1
  have h2 := routePostText_success sha db1 uid2 s n2 c2 hne2 hu2 hc2
  rw [hs2] at h2
  injection h2 with hr2 hdb2
  have hmax1 : max 0 (c1 - 1) = c1 - 1 := max_eq_right (by omega)
  have hmax2 : max 0 (c2 - 1) = c2 - 1 := max_eq_right (by omega)
  have hdb1text : db1.hashText =
      insertIfAbsent db.hashText (sha256String sha s) s := by rw [hdb1]
  have hnodup1 : (db1.hashText.map Prod.fst).Nodup := by
    rw [hdb1text]
    exact nodup_keys_insertIfAbsent db.hashText (sha256String sha s) s hnodup
  have htext1 : db1.findText (sha256String sha s) = some s := by
    rw [hdb1]
    exact findText_after_insert db (sha256String sha s) s hcol
      (debitUser db.users uid1)
  refine ⟨hr1, hr2, ?_, ?_, ?_, ?_⟩
  · rw [hdb2]
    exact countP_insertIfAbsent db1.hashText (sha256String sha s) s hnodup1
  · rw [hdb2]
    exact findText_after_insert db1 (sha256String sha s) s (Or.inr htext1)
      (debitUser db1.users uid2)
  · rw [hdb1, ← hmax1]
    exact findUser_after_debit db uid1 n1 c1 hu1
      (insertIfAbsent db.hashText (sha256String sha s) s)
  · rw [hdb2, ← hmax2]
    exact findUser_after_debit db1 uid2 n2 c2 hu2
      (insertIfAbsent db1.hashText (sha256String sha s) s)

/-- Witness for C3: two users submit "hi" in turn against an empty content
table; the digest function is fixed to the bytes 171 and 5. -/
theorem resubmission_idempotent_witness :
    ("u1" : String) ≠ "" ∧ ("u2" : String) ≠ "" ∧
    (DB.mk [("u1", "A", 5), ("u2", "B", 3)] []).findUser "u1" =
      some ("A", 5) ∧ ((0 : Int) < 5) ∧
    routePostText (fun _ : String => ([171, 5] : List Nat)) noFaults
        (DB.mk [("u1", "A", 5), ("u2", "B", 3)] []) (some "u1")
        (ParsedBody.doc ⟨"hi"⟩) =
      (sendJSONResponse (marshalHashDocument ⟨"ab05"⟩),
       DB.mk [("u1", "A", 4), ("u2", "B", 3)] [("ab05", "hi")]) ∧
    (DB.mk [("u1", "A", 4), ("u2", "B", 3)] [("ab05", "hi")]).findUser "u2" =
      some ("B", 3) ∧ ((0 : Int) < 3) ∧
    routePostText (fun _ : String => ([171, 5] : List Nat)) noFaults
        (DB.mk [("u1", "A", 4), ("u2", "B", 3)] [("ab05", "hi")]) (some "u2")
        (ParsedBody.doc ⟨"hi"⟩) =
      (sendJSONResponse (marshalHashDocument ⟨"ab05"⟩),
       DB.mk [("u1", "A", 4), ("u2", "B", 2)] [("ab05", "hi")]) ∧
    ((DB.mk [("u1", "A", 5), ("u2", "B", 3)] []).hashText.map
      Prod.fst).Nodup ∧
    (DB.mk [("u1", "A", 5), ("u2", "B", 3)] []).findText
      (sha256String (fun _ : String => ([171, 5] : List Nat)) "hi") = none ∧
    (DB.mk [("u1", "A", 4), ("u2", "B", 2)] [("ab05", "hi")]).hashText.countP
      (fun r => r.1 == sha256String (fun _ : String => ([171, 5] : List Nat))
        "hi") = 1 ∧
    (DB.mk [("u1", "A", 4), ("u2", "B", 2)] [("ab05", "hi")]).findText
      (sha256String (fun _ : String => ([171, 5] : List Nat)) "hi") =
      some "hi" ∧
    (DB.mk [("u1", "A", 4), ("u2", "B", 3)] [("ab05", "hi")]).findUser "u1" =
      some ("A", 5 - 1) ∧
    (DB.mk [("u1", "A", 4), ("u2", "B", 2)] [("ab05", "hi")]).findUser "u2" =
      some ("B", 3 - 1) := by
  have happ := resubmission_idempotent_storage_nonidempotent_billing
    (fun _ : String => ([171, 5] : List Nat))
    (DB.mk [("u1", "A", 5), ("u2", "B", 3)] [])
    (DB.mk [("u1", "A", 4), ("u2", "B", 3)] [("ab05", "hi")])
    (DB.mk [("u1", "A", 4), ("u2", "B", 2)] [("ab05", "hi")])
    (sendJSONResponse (marshalHashDocument ⟨"ab05"⟩))
    (sendJSONResponse (marshalHashDocument ⟨"ab05"⟩))
    "hi" "u1" "u2" "A" "B" 5 3
    (by decide) (by decide) (by decide) (by decide) (by decide)
    (by decide) (by decide) (by decide) (by decide) (Or.inl rfl)
  exact ⟨by decide, by decide, by decide, by decide, by decide, by decide,
    by decide, by decide, by decide, by decide, happ.2.2.1, happ.2.2.2.1,
    happ.2.2.2.2.1, happ.2.2.2.2.2⟩

/-- Witness for C10: a faulting credit query for an existing user. -/
theorem credit_lookup_failure_gives_payment_required_witness :
    (({ noFaults with creditQuery := true } : Faults).creditQuery = true ∨
      (DB.mk [("u1", "Jane", 5)] []).findUser (headerGet (some "u1")) =
        none) ∧
    textHandler (fun _ => []) { noFaults with creditQuery := true }
        (DB.mk [("u1", "Jane", 5)] []) (some "u1") (ParsedBody.doc ⟨"x"⟩) =
      (sendErrorMessage "You are out of credit. Please pay us more money." 402,
       DB.mk [("u1", "Jane", 5)] []) :=
  ⟨Or.inl rfl,
   credit_lookup_failure_gives_payment_required (fun _ => [])
     { noFaults with creditQuery := true } (DB.mk [("u1", "Jane", 5)] [])
     (some "u1") (ParsedBody.doc ⟨"x"⟩) (Or.inl rfl)⟩

end HashText
